import Mathlib

/- Shallow embedding of src/media_organizer.py: the classification and
   destination-resolution engine, the collision-free path resolver
   (get_safe_path), the EXIF date parsing done by get_photo_date, the
   per-run statistics accumulator of run_task, and the CLI startup logic
   of the __main__ block.  External collaborators (the `file` command,
   PIL, hachoir, the OS filesystem) appear as explicit inputs: the
   filesystem is a list of existing path strings, per-file metadata
   results are fields of the file's record. -/

/-- Python's str.startswith on code points. -/
def pyStartsWith (s pre : String) : Bool := pre.data.isPrefixOf s.data

/-- Python's str.lower on the code points the organizer meets. -/
def pyLower (s : String) : String := ⟨s.data.map Char.toLower⟩

/-- Most-significant-first decimal digits of n, with enough fuel. -/
def natReprAux : Nat → Nat → List Char
  | 0, _ => []
  | _ + 1, 0 => []
  | fuel + 1, m + 1 => natReprAux fuel ((m + 1) / 10) ++ [Nat.digitChar ((m + 1) % 10)]

/-- Decimal rendering of a natural number, as Python's str() renders an int. -/
def natRepr (n : Nat) : String :=
  if n = 0 then "0" else ⟨natReprAux n n⟩

/-- Python's f-string formatting f"{n:02d}": pad with a zero to width two. -/
def pad2 (n : Nat) : String :=
  if n < 10 then "0" ++ natRepr n else natRepr n

/-- Rendering of a path given by its components, as str(Path) joins them. -/
def pathString (comps : List String) : String :=
  String.intercalate "/" comps

/-- pathlib's (stem, suffix) split of a file name: the suffix starts at the
    last dot provided its index i satisfies 0 < i < len(name) - 1;
    otherwise the suffix is empty and the stem is the whole name. -/
def splitExt (nm : String) : String × String :=
  let cs := nm.data
  let tl := cs.reverse.takeWhile (fun c => c ≠ '.')
  if tl.length < cs.length then
    let i := cs.length - tl.length - 1
    if 0 < i ∧ i < cs.length - 1 then (⟨cs.take i⟩, ⟨cs.drop i⟩) else (nm, "")
  else (nm, "")

/-- The three categories run_task assigns (its stats keys are the strings
    "Photos", "Videos", "Non-Media"). -/
inductive Category where
  | photos
  | videos
  | nonMedia
deriving DecidableEq, Repr

/-- The string run_task stores in the `category` variable. -/
def catName : Category → String
  | .photos => "Photos"
  | .videos => "Videos"
  | .nonMedia => "Non-Media"

/-- The raw-photo extension list of run_task line 112. -/
def rawPhotoExts : List String := [".raw", ".arw", ".cr2", ".nef", ".dng", ".heic"]

/-- The video extension list of run_task line 113. -/
def videoExts : List String := [".mkv", ".mov", ".mp4", ".avi", ".3gp"]

/-- is_photo = mime.startswith('image/') or ext in [...]. -/
def isPhotoCheck (mime ext : String) : Bool :=
  pyStartsWith mime "image/" || rawPhotoExts.contains ext

/-- is_video = mime.startswith('video/') or ext in [...]. -/
def isVideoCheck (mime ext : String) : Bool :=
  pyStartsWith mime "video/" || videoExts.contains ext

/-- run_task lines 115-120: category from is_photo / is_video. -/
def classify (mime ext : String) : Category :=
  if isPhotoCheck mime ext then .photos
  else if isVideoCheck mime ext then .videos
  else .nonMedia

/-- A naive Python datetime, as far as the organizer reads it. -/
structure PyDateTime where
  year : Nat
  month : Nat
  day : Nat
  hour : Nat
  minute : Nat
  second : Nat
deriving DecidableEq, Repr

/-- run_task lines 138-147: the candidate destination path (components)
    for a file of category `c` with relative path `rel`, name `nm` and
    extracted date `date`, under target `target`. -/
def computeDest (target : List String) (c : Category) (rel : List String)
    (nm : String) (date : Option PyDateTime) : List String :=
  if c = .nonMedia then
    target ++ ["NonMedia"] ++ rel
  else
    match date with
    | some d => target ++ [catName c, natRepr d.year, pad2 d.month] ++ [nm]
    | none => target ++ ["UnknownDate", catName c] ++ [nm]

/-- Modelled from the spec's words (section 4.5 step 6), for comparison with
    computeDest: NonMedia goes to {target}/NonMedia/{pathRelativeToSource};
    dated media to {target}/{Category}/{year}/{zero-padded 2-digit month}/
    {originalFileName}; undated media to {target}/UnknownDate/{Category}/
    {originalFileName}. -/
def destPerSpec (target : List String) (c : Category) (rel : List String)
    (nm : String) (date : Option PyDateTime) : List String :=
  match c, date with
  | .nonMedia, _ => target ++ ["NonMedia"] ++ rel
  | _, some d =>
      target ++ [catName c, natRepr d.year,
        (if d.month < 10 then "0" ++ natRepr d.month else natRepr d.month), nm]
  | _, none => target ++ ["UnknownDate", catName c, nm]

/-- Numeric value of a decimal digit character. -/
def digitVal (c : Char) : Nat := c.toNat - 48

/-- The %Y field of CPython's strptime: exactly four decimal digits. -/
def parseYear4 : List Char → Option (Nat × List Char)
  | a :: b :: c :: d :: rest =>
      if a.isDigit && b.isDigit && c.isDigit && d.isDigit then
        some (digitVal a * 1000 + digitVal b * 100 + digitVal c * 10 + digitVal d, rest)
      else none
  | _ => none

/-- A two-digit-preferred numeric field: two digits when their value lies in
    [lo2, hi2] (the two-digit regex alternatives), else one digit whose value
    lies in [lo1, 9].  In the pattern at hand each field is followed by a
    separator or the end of input, so this ordered choice agrees with the
    backtracking regex CPython builds. -/
def parse2or1 (lo2 hi2 lo1 : Nat) : List Char → Option (Nat × List Char)
  | a :: b :: rest =>
      if a.isDigit && b.isDigit then
        let v := digitVal a * 10 + digitVal b
        if lo2 ≤ v ∧ v ≤ hi2 then some (v, rest)
        else if lo1 ≤ digitVal a then some (digitVal a, b :: rest)
        else none
      else if a.isDigit && lo1 ≤ digitVal a then some (digitVal a, b :: rest)
      else none
  | [a] => if a.isDigit && lo1 ≤ digitVal a then some (digitVal a, []) else none
  | [] => none

/-- A literal character of the format string. -/
def parseLit (c : Char) : List Char → Option (List Char)
  | x :: rest => if x = c then some rest else none
  | [] => none

/-- Python's calendar leap-year rule, as datetime uses it. -/
def isLeapYear (y : Nat) : Bool :=
  y % 4 = 0 && (y % 100 ≠ 0 || y % 400 = 0)

/-- Days in a month, as datetime validates the day field. -/
def daysInMonth (y m : Nat) : Nat :=
  if m = 2 then (if isLeapYear y then 29 else 28)
  else if m = 4 ∨ m = 6 ∨ m = 9 ∨ m = 11 then 30
  else 31

/-- datetime.strptime(s, '%Y:%m:%d %H:%M:%S') returning a value exactly when
    CPython returns a datetime: the field regexes %Y=dddd, %m=1[0-2]|0[1-9]|
    [1-9], %d=3[01]|[12]d|0[1-9]|[1-9], %H=2[0-3]|[0-1]d|d, %M=[0-5]d|d,
    %S=6[0-1]|[0-5]d|d, no unconverted data, and the datetime constructor's
    range checks (year at least 1, day within the month, second at most 59). -/
def strptimeYmdHMS (s : String) : Option PyDateTime := do
  let (y, r1) ← parseYear4 s.data
  let r2 ← parseLit ':' r1
  let (mo, r3) ← parse2or1 1 12 1 r2
  let r4 ← parseLit ':' r3
  let (d, r5) ← parse2or1 1 31 1 r4
  let r6 ← parseLit ' ' r5
  let (h, r7) ← parse2or1 0 23 0 r6
  let r8 ← parseLit ':' r7
  let (mi, r9) ← parse2or1 0 59 0 r8
  let r10 ← parseLit ':' r9
  let (sec, r11) ← parse2or1 0 61 0 r10
  if r11 = [] ∧ 1 ≤ y ∧ d ≤ daysInMonth y mo ∧ sec ≤ 59 then
    some ⟨y, mo, d, h, mi, sec⟩
  else none

/-- get_photo_date's treatment of the EXIF DateTimeOriginal tag value (line
    56 of the source): datetime.strptime(value[:19], '%Y:%m:%d %H:%M:%S'),
    with any exception turned into None by the surrounding handler.  PIL's
    tag lookup is the external collaborator; the value string is the input. -/
def get_photo_date_value (value : String) : Option PyDateTime :=
  strptimeYmdHMS ⟨value.data.take 19⟩

/-- A destination path as get_safe_path reads it: parent directory, stem
    and suffix (pathlib supplies the split; datetime.now() supplies the
    date string, here an explicit parameter). -/
structure FsPath where
  parent : String
  stem : String
  sfx : String
deriving DecidableEq, Repr

/-- str() of the path itself. -/
def FsPath.full (p : FsPath) : String := p.parent ++ "/" ++ p.stem ++ p.sfx

/-- new_name = f"{base}_{date_str}_{counter}{suffix}" (line 41). -/
def safeName (base dateStr : String) (counter : Nat) (sfx : String) : String :=
  base ++ "_" ++ dateStr ++ "_" ++ natRepr counter ++ sfx

/-- str(parent / new_name): the candidate the loop tests. -/
def safeCand (p : FsPath) (dateStr : String) (counter : Nat) : String :=
  p.parent ++ "/" ++ safeName p.stem dateStr counter p.sfx

/-- The while-loop of get_safe_path, made total by fuel; the filesystem is
    the list of existing path strings. -/
def safeLoop (fs : List String) (p : FsPath) (dateStr : String) :
    Nat → Nat → Option String
  | 0, _ => none
  | fuel + 1, counter =>
      if safeCand p dateStr counter ∈ fs then
        safeLoop fs p dateStr fuel (counter + 1)
      else some (safeCand p dateStr counter)

/-- get_safe_path (lines 30-45): return the path unchanged when it does not
    exist, else search counters from 1.  Fuel fs.length + 1 always suffices
    (safeLoop_total below), so the getD default is never taken. -/
def get_safe_path (fs : List String) (today : String) (p : FsPath) : String :=
  if p.full ∈ fs then (safeLoop fs p today (fs.length + 1) 1).getD p.full
  else p.full

/-- One enumerated filesystem entry under the source tree, together with the
    results the external collaborators would give for it: rel is the path
    relative to the source (absolute path = source ++ rel), isFile is
    file_path.is_file(), mime is what `file --mime-type` printed (or the
    sentinel), photoDate / videoDate are what get_photo_date / get_video_date
    would return, and moveFails / moveErr describe whether shutil.move would
    raise and with which message. -/
structure FileEntry where
  rel : List String
  isFile : Bool
  size : Nat
  mime : String
  photoDate : Option PyDateTime
  videoDate : Option PyDateTime
  moveFails : Bool
  moveErr : String
deriving DecidableEq, Repr

/-- file_path.name: the last component. -/
def fileName (f : FileEntry) : String := f.rel.getLastD ""

/-- ext = file_path.suffix.lower() or ".no_ext" (line 109). -/
def extOf (f : FileEntry) : String :=
  let e := pyLower (splitExt (fileName f)).2
  if e = "" then ".no_ext" else e

/-- The step-1 skip rules of run_task lines 98-105: not a regular file, or
    inside the target subtree / the target itself (target_path in
    file_path.parents or file_path == target_path, i.e. the target's
    components are a prefix of the file's), or named like the log file. -/
def skipsFile (source : List String) (target : Option (List String)) (f : FileEntry) : Bool :=
  !f.isFile ||
    (match target with
     | some t => t.isPrefixOf (source ++ f.rel)
     | none => false) ||
    fileName f == "organization_log.txt"

/-- The run modes of run_task / the CLI. -/
inductive RunMode where
  | report
  | dryRun
  | organize
deriving DecidableEq, Repr

/-- One category's slice of the stats dictionary: the per-extension Counter,
    the per-extension size defaultdict, and the category's totals. -/
structure CatStats where
  countByExt : List (String × Nat)
  sizeByExt : List (String × Nat)
  totalCount : Nat
  totalSize : Nat
deriving DecidableEq, Repr

def CatStats.start : CatStats := ⟨[], [], 0, 0⟩

/-- The stats dictionary of run_task lines 82-93. -/
structure Stats where
  photos : CatStats
  videos : CatStats
  nonMedia : CatStats
  moved : List String
  errors : List String
deriving DecidableEq, Repr

def Stats.start : Stats := ⟨CatStats.start, CatStats.start, CatStats.start, [], []⟩

def Stats.catStats (st : Stats) : Category → CatStats
  | .photos => st.photos
  | .videos => st.videos
  | .nonMedia => st.nonMedia

def Stats.withCat (st : Stats) : Category → CatStats → Stats
  | .photos, cs => { st with photos := cs }
  | .videos, cs => { st with videos := cs }
  | .nonMedia, cs => { st with nonMedia := cs }

/-- Add d to the entry of key k (Counter / defaultdict semantics: insertion
    order kept, a new key appended at the end with the default 0). -/
def bumpAssoc : List (String × Nat) → String → Nat → List (String × Nat)
  | [], k, d => [(k, d)]
  | (k', v) :: rest, k, d =>
      if k' = k then (k', v + d) :: rest else (k', v) :: bumpAssoc rest k d

/-- The value stored at key k (0 when absent, as Counter / defaultdict). -/
def lookupAssoc : List (String × Nat) → String → Nat
  | [], _ => 0
  | (k', v) :: rest, k => if k' = k then v else lookupAssoc rest k

/-- run_task lines 122-126: the four statistics updates for one file. -/
def bumpStats (st : Stats) (c : Category) (ext : String) (sz : Nat) : Stats :=
  let cs := st.catStats c
  st.withCat c
    { countByExt := bumpAssoc cs.countByExt ext 1,
      sizeByExt := bumpAssoc cs.sizeByExt ext sz,
      totalCount := cs.totalCount + 1,
      totalSize := cs.totalSize + sz }

/-- run_task lines 132-136: date from get_photo_date when is_photo, else
    from get_video_date when is_video, else None. -/
def extractDate (f : FileEntry) (ext : String) : Option PyDateTime :=
  if isPhotoCheck f.mime ext then f.photoDate
  else if isVideoCheck f.mime ext then f.videoDate
  else none

/-- A path string becomes existing (mkdir leaves an existing one alone). -/
def addPathOnce (fs : List String) (s : String) : List String :=
  if s ∈ fs then fs else fs ++ [s]

/-- dest.parent.mkdir(parents=True, exist_ok=True): every prefix of the
    parent's components now exists. -/
def mkdirParents (fs : List String) (comps : List String) : List String :=
  (List.range comps.length).foldl
    (fun acc i => addPathOnce acc (pathString (comps.take (i + 1)))) fs

/-- The body of run_task's per-file loop (lines 97-158).  The state is the
    stats dictionary plus the filesystem, a list of existing path strings.
    In organize mode a failing shutil.move is caught: it appends one error
    entry; a succeeding one records the move and updates the filesystem. -/
def processFile (mode : RunMode) (source : List String) (target : Option (List String))
    (today : String) (acc : Stats × List String) (f : FileEntry) : Stats × List String :=
  if skipsFile source target f then acc
  else
    let ext := extOf f
    let c := classify f.mime ext
    let st := bumpStats acc.1 c ext f.size
    if mode = .report then (st, acc.2)
    else
      let date := extractDate f ext
      let dest := computeDest (target.getD []) c f.rel (fileName f) date
      if mode = .organize then
        let fs1 := mkdirParents acc.2 dest.dropLast
        let dp : FsPath :=
          ⟨pathString dest.dropLast, (splitExt (fileName f)).1, (splitExt (fileName f)).2⟩
        let finalDest := get_safe_path fs1 today dp
        if f.moveFails then
          ({ st with errors := st.errors ++
              ["Error moving " ++ pathString (source ++ f.rel) ++ ": " ++ f.moveErr] }, fs1)
        else
          ({ st with moved := st.moved ++
              [catName c ++ ": " ++ fileName f ++ " -> " ++ finalDest] },
            (fs1.erase (pathString (source ++ f.rel))) ++ [finalDest])
      else
        ({ st with moved := st.moved ++
            ["[DRY RUN] " ++ catName c ++ ": " ++ fileName f ++ " -> " ++ pathString dest] },
          acc.2)

/-- run_task over the enumerated entries, in discovery order. -/
def runTask (mode : RunMode) (source : List String) (target : Option (List String))
    (today : String) (files : List FileEntry) (acc : Stats × List String) :
    Stats × List String :=
  files.foldl (processFile mode source target today) acc

/-- The log writing of the __main__ block (lines 211-220): for non-Report
    modes the file organization_log.txt gets one line per moved/plan entry;
    in Report mode no log file is opened at all. -/
def logLines (mode : RunMode) (st : Stats) : Option (List String) :=
  if mode = .report then none else some st.moved

/-- The invariant of claim C5 for one category: the per-extension counts sum
    to the total count and the per-extension sizes to the total size. -/
def sumVals (m : List (String × Nat)) : Nat := (m.map (fun p => p.2)).sum

def catInv (cs : CatStats) : Prop :=
  sumVals cs.countByExt = cs.totalCount ∧ sumVals cs.sizeByExt = cs.totalSize

def statsInv (st : Stats) : Prop :=
  catInv st.photos ∧ catInv st.videos ∧ catInv st.nonMedia

/-- How the __main__ block (lines 162-193) can end before run_task is
    reached: the usage exit for too few argv entries (line 170), the
    source-missing exit (line 189), the target-missing exit (line 193),
    an uncaught TypeError from os.path.exists(None) when no positional
    argument exists (line 187 with src = None: not an exit with a usage
    message but a traceback), or proceeding into run_task. -/
inductive StartupOutcome where
  | usageExit
  | sourceMissingExit
  | targetMissingExit
  | typeError
  | proceed (src : String) (dst : Option String) (mode : RunMode)
deriving DecidableEq, Repr

/-- positional = [a for a in args[1:] if not a.startswith('--')]. -/
def positionalsOf (argv : List String) : List String :=
  (argv.drop 1).filter (fun a => !(pyStartsWith a "--"))

/-- Lines 177-185: --report-only anywhere wins, then --dry-run, else organize. -/
def modeOf (argv : List String) : RunMode :=
  if argv.contains "--report-only" then .report
  else if argv.contains "--dry-run" then .dryRun
  else .organize

/-- The dst variable of lines 177-185: None in report mode, else the second
    positional if any. -/
def dstOf (argv : List String) : Option String :=
  if argv.contains "--report-only" then none else (positionalsOf argv)[1]?

/-- The __main__ startup logic over argv (argv[0] is the program name) and
    the os.path.exists oracle.  Note `not dst` on line 191 is also true for
    an empty-string dst, and os.path.exists(None) raises TypeError. -/
def mainStartup (argv : List String) (pathExists : String → Bool) : StartupOutcome :=
  if argv.length < 2 then .usageExit
  else
    match (positionalsOf argv).head? with
    | none => .typeError
    | some src =>
        if !(pathExists src) then .sourceMissingExit
        else if modeOf argv ≠ .report ∧ (dstOf argv = none ∨ dstOf argv = some "") then
          .targetMissingExit
        else .proceed src (dstOf argv) (modeOf argv)

/-- Claim C1: classification assigns Photo when the MIME string has prefix
    "image/" or the lower-cased extension is one of the six raw-photo
    extensions; otherwise Video when the MIME string has prefix "video/" or
    the extension is one of the five video extensions; otherwise NonMedia.
    In particular MIME "image/jpeg" with no recognizable extension is Photo,
    and extension ".cr2" with MIME "application/octet-stream" is Photo. -/
theorem claim_C1 (mime ext : String) :
    (classify mime ext = .photos ↔
      (pyStartsWith mime "image/" = true ∨ ext ∈ rawPhotoExts)) ∧
    (classify mime ext = .videos ↔
      (¬(pyStartsWith mime "image/" = true ∨ ext ∈ rawPhotoExts) ∧
        (pyStartsWith mime "video/" = true ∨ ext ∈ videoExts))) ∧
    (classify mime ext = .nonMedia ↔
      (¬(pyStartsWith mime "image/" = true ∨ ext ∈ rawPhotoExts) ∧
        ¬(pyStartsWith mime "video/" = true ∨ ext ∈ videoExts))) ∧
    classify "image/jpeg" ".no_ext" = .photos ∧
    classify "application/octet-stream" ".cr2" = .photos := by
  refine ⟨?_, ?_, ?_, by decide, by decide⟩ <;>
    · unfold classify isPhotoCheck isVideoCheck
      split_ifs with h1 h2 <;> simp_all

/-- Claim C2: for every non-Report-mode file the computed destination is
    {target}/NonMedia/{relative path} for NonMedia, {target}/{Category}/
    {year}/{zero-padded 2-digit month}/{name} for media with a date, and
    {target}/UnknownDate/{Category}/{name} for media without one: the
    destination computed by run_task coincides with the spec's formula. -/
theorem claim_C2 (target : List String) (c : Category) (rel : List String)
    (nm : String) (date : Option PyDateTime) :
    computeDest target c rel nm date = destPerSpec target c rel nm date := by
  cases c <;> cases date <;> simp [computeDest, destPerSpec, pad2]

theorem natReprAux_eq (fuel : Nat) :
    ∀ n, n ≤ fuel → natReprAux fuel n = (Nat.digits 10 n).reverse.map Nat.digitChar := by
  induction fuel with
  | zero =>
      intro n hn
      have : n = 0 := Nat.le_zero.mp hn
      subst this
      simp [natReprAux]
  | succ fuel ih =>
      intro n hn
      cases n with
      | zero => simp [natReprAux]
      | succ m =>
          have hdiv : (m + 1) / 10 < m + 1 := Nat.div_lt_self (Nat.succ_pos m) (by norm_num)
          rw [natReprAux, ih ((m + 1) / 10) (by omega),
            Nat.digits_def' (by norm_num : 1 < 10) (Nat.succ_pos m)]
          simp

theorem digitChar_inj : ∀ a < 10, ∀ b < 10, Nat.digitChar a = Nat.digitChar b → a = b := by
  decide

theorem map_digitChar_inj (l1 : List Nat) :
    ∀ l2 : List Nat, (∀ x ∈ l1, x < 10) → (∀ x ∈ l2, x < 10) →
      l1.map Nat.digitChar = l2.map Nat.digitChar → l1 = l2 := by
  induction l1 with
  | nil => intro l2 _ _ h; cases l2 <;> simp_all
  | cons a t ih =>
      intro l2 h1 h2 h
      cases l2 with
      | nil => simp_all
      | cons b t2 =>
          simp only [List.map_cons, List.cons.injEq] at h
          have hab := digitChar_inj a (h1 a (by simp)) b (h2 b (by simp)) h.1
          subst hab
          have := ih t2 (fun x hx => h1 x (by simp [hx])) (fun x hx => h2 x (by simp [hx])) h.2
          simp [this]

theorem str_data_inj {s t : String} (h : s.data = t.data) : s = t := by
  cases s; cases t; exact congrArg String.mk h

theorem str_data_append (a b : String) : (a ++ b).data = a.data ++ b.data := rfl

theorem natRepr_inj (m n : Nat) (hm : 0 < m) (hn : 0 < n) (h : natRepr m = natRepr n) :
    m = n := by
  unfold natRepr at h
  rw [if_neg (by omega), if_neg (by omega)] at h
  have hdata : natReprAux m m = natReprAux n n := congrArg String.data h
  rw [natReprAux_eq m m le_rfl, natReprAux_eq n n le_rfl] at hdata
  have hrev := map_digitChar_inj (Nat.digits 10 m).reverse (Nat.digits 10 n).reverse
    (fun x hx => Nat.digits_lt_base (by norm_num) (List.mem_reverse.mp hx))
    (fun x hx => Nat.digits_lt_base (by norm_num) (List.mem_reverse.mp hx)) hdata
  have hdig : Nat.digits 10 m = Nat.digits 10 n := by
    have := congrArg List.reverse hrev
    simpa using this
  have := congrArg (Nat.ofDigits 10) hdig
  simpa [Nat.ofDigits_digits] using this

theorem append_middle_inj {α : Type} (P S x y : List α) (h : P ++ (x ++ S) = P ++ (y ++ S)) :
    x = y := by
  have h1 := List.append_cancel_left h
  exact List.append_cancel_right h1

theorem safeCand_inj (p : FsPath) (d : String) (m n : Nat) (hm : 0 < m) (hn : 0 < n)
    (h : safeCand p d m = safeCand p d n) : m = n := by
  unfold safeCand safeName at h
  have hd := congrArg String.data h
  simp only [str_data_append, List.append_assoc] at hd
  have h1 := List.append_cancel_left hd
  have h2 := List.append_cancel_left h1
  have h3 := List.append_cancel_left h2
  have h4 := List.append_cancel_left h3
  have h5 := List.append_cancel_left h4
  have h6 := List.append_cancel_left h5
  have h7 : (natRepr m).data = (natRepr n).data := List.append_cancel_right h6
  exact natRepr_inj m n hm hn (str_data_inj h7)

theorem safeCand_exists_free (fs : List String) (p : FsPath) (d : String) :
    ∃ k, k < fs.length + 1 ∧ safeCand p d (k + 1) ∉ fs := by
  by_contra hall
  push_neg at hall
  have hinj : Set.InjOn (fun k => safeCand p d (k + 1)) (Finset.range (fs.length + 1)) := by
    intro a _ b _ hab
    have := safeCand_inj p d (a + 1) (b + 1) (Nat.succ_pos a) (Nat.succ_pos b) hab
    omega
  have hmaps : ∀ k ∈ Finset.range (fs.length + 1), safeCand p d (k + 1) ∈ fs.toFinset := by
    intro k hk
    exact List.mem_toFinset.mpr (hall k (Finset.mem_range.mp hk))
  have hcard := Finset.card_le_card_of_injOn (fun k => safeCand p d (k + 1)) hmaps hinj
  rw [Finset.card_range] at hcard
  have := fs.toFinset_card_le
  omega

theorem safeLoop_spec (fs : List String) (p : FsPath) (d : String) :
    ∀ fuel start, (∃ k, k < fuel ∧ safeCand p d (start + k) ∉ fs) →
      ∃ n, safeLoop fs p d fuel start = some (safeCand p d n) ∧ start ≤ n ∧
        safeCand p d n ∉ fs ∧ ∀ m, start ≤ m → m < n → safeCand p d m ∈ fs := by
  intro fuel
  induction fuel with
  | zero =>
      rintro start ⟨k, hk, -⟩
      exact absurd hk (Nat.not_lt_zero k)
  | succ fuel ih =>
      rintro start ⟨k, hk, hfree⟩
      by_cases hc : safeCand p d start ∈ fs
      · have hk0 : k ≠ 0 := by
          intro h0
          rw [h0, Nat.add_zero] at hfree
          exact hfree hc
        have hfree' : safeCand p d (start + 1 + (k - 1)) ∉ fs := by
          have harith : start + 1 + (k - 1) = start + k := by omega
          rw [harith]
          exact hfree
        obtain ⟨n, heq, hle, hn, hmin⟩ := ih (start + 1) ⟨k - 1, by omega, hfree'⟩
        refine ⟨n, ?_, by omega, hn, ?_⟩
        · simpa [safeLoop, hc] using heq
        · intro m hm1 hm2
          rcases Nat.eq_or_lt_of_le hm1 with h | h
          · exact h ▸ hc
          · exact hmin m (by omega) hm2
      · exact ⟨start, by simp [safeLoop, hc], le_rfl, hc,
          fun m h1 h2 => absurd h1 (by omega)⟩

/-- Claim C3: get_safe_path returns a non-existing candidate unchanged; an
    existing one gets the name {stem}_{YYYYMMDD}_{n}{suffix} in the same
    parent directory with n the least counter from 1 whose path is unused;
    the returned path never exists at call time.  The filesystem is the
    list of existing path strings, the current date an explicit input. -/
theorem claim_C3 (fs : List String) (today : String) (p : FsPath) :
    (p.full ∉ fs → get_safe_path fs today p = p.full) ∧
    (p.full ∈ fs → ∃ n, 1 ≤ n ∧
      get_safe_path fs today p = safeCand p today n ∧
      safeCand p today n ∉ fs ∧
      ∀ m, 1 ≤ m → m < n → safeCand p today m ∈ fs) ∧
    get_safe_path fs today p ∉ fs := by
  have main : p.full ∈ fs → ∃ n, 1 ≤ n ∧
      get_safe_path fs today p = safeCand p today n ∧
      safeCand p today n ∉ fs ∧
      ∀ m, 1 ≤ m → m < n → safeCand p today m ∈ fs := by
    intro hmem
    obtain ⟨k, hk, hfree⟩ := safeCand_exists_free fs p today
    have hfree1 : safeCand p today (1 + k) ∉ fs := by
      rwa [Nat.add_comm] at hfree
    obtain ⟨n, heq, hle, hn, hmin⟩ :=
      safeLoop_spec fs p today (fs.length + 1) 1 ⟨k, hk, hfree1⟩
    refine ⟨n, hle, ?_, hn, hmin⟩
    unfold get_safe_path
    rw [if_pos hmem, heq]
    rfl
  refine ⟨?_, main, ?_⟩
  · intro h
    unfold get_safe_path
    rw [if_neg h]
  · by_cases hmem : p.full ∈ fs
    · obtain ⟨n, -, heq, hn, -⟩ := main hmem
      rw [heq]
      exact hn
    · unfold get_safe_path
      rw [if_neg hmem]
      exact hmem

/-- Concrete run of claim_C3 on the spec's own test: a directory holding
    photo.jpg and photo_20240101_1.jpg, on 2024-01-01, resolves to
    photo_20240101_2.jpg, which does not exist. -/
theorem claim_C3_witness :
    get_safe_path ["d/photo.jpg", "d/photo_20240101_1.jpg"] "20240101"
        ⟨"d", "photo", ".jpg"⟩ = "d/photo_20240101_2.jpg" ∧
    get_safe_path ["d/photo.jpg", "d/photo_20240101_1.jpg"] "20240101"
        ⟨"d", "photo", ".jpg"⟩ ∉ ["d/photo.jpg", "d/photo_20240101_1.jpg"] ∧
    (∃ n, 1 ≤ n ∧
      get_safe_path ["d/photo.jpg", "d/photo_20240101_1.jpg"] "20240101"
          ⟨"d", "photo", ".jpg"⟩
        = safeCand ⟨"d", "photo", ".jpg"⟩ "20240101" n ∧
      safeCand ⟨"d", "photo", ".jpg"⟩ "20240101" n ∉
        ["d/photo.jpg", "d/photo_20240101_1.jpg"] ∧
      ∀ m, 1 ≤ m → m < n →
        safeCand ⟨"d", "photo", ".jpg"⟩ "20240101" m ∈
          ["d/photo.jpg", "d/photo_20240101_1.jpg"]) :=
  ⟨by decide,
   (claim_C3 ["d/photo.jpg", "d/photo_20240101_1.jpg"] "20240101" ⟨"d", "photo", ".jpg"⟩).2.2,
   (claim_C3 ["d/photo.jpg", "d/photo_20240101_1.jpg"] "20240101" ⟨"d", "photo", ".jpg"⟩).2.1
     (by decide)⟩

theorem lookup_bumpAssoc_self (m : List (String × Nat)) (k : String) (d : Nat) :
    lookupAssoc (bumpAssoc m k d) k = lookupAssoc m k + d := by
  induction m with
  | nil => simp [bumpAssoc, lookupAssoc]
  | cons p rest ih =>
      obtain ⟨k', v⟩ := p
      by_cases h : k' = k <;> simp [bumpAssoc, lookupAssoc, h, ih]

theorem lookup_bumpAssoc_other (m : List (String × Nat)) (k k2 : String) (d : Nat)
    (h : k2 ≠ k) : lookupAssoc (bumpAssoc m k d) k2 = lookupAssoc m k2 := by
  induction m with
  | nil => simp [bumpAssoc, lookupAssoc, Ne.symm h]
  | cons p rest ih =>
      obtain ⟨k', v⟩ := p
      by_cases h1 : k' = k <;> by_cases h2 : k' = k2 <;>
        simp_all [bumpAssoc, lookupAssoc]

theorem catStats_withCat_self (st : Stats) (c : Category) (cs : CatStats) :
    (st.withCat c cs).catStats c = cs := by
  cases c <;> rfl

theorem catStats_withCat_other (st : Stats) (c : Category) (cs : CatStats)
    (c' : Category) (h : c' ≠ c) : (st.withCat c cs).catStats c' = st.catStats c' := by
  cases c <;> cases c' <;> simp_all [Stats.withCat, Stats.catStats]

theorem withCat_moved (st : Stats) (c : Category) (cs : CatStats) :
    (st.withCat c cs).moved = st.moved := by
  cases c <;> rfl

theorem withCat_errors (st : Stats) (c : Category) (cs : CatStats) :
    (st.withCat c cs).errors = st.errors := by
  cases c <;> rfl

theorem bumpStats_self (st : Stats) (c : Category) (e : String) (sz : Nat) :
    (bumpStats st c e sz).catStats c =
      ⟨bumpAssoc (st.catStats c).countByExt e 1, bumpAssoc (st.catStats c).sizeByExt e sz,
        (st.catStats c).totalCount + 1, (st.catStats c).totalSize + sz⟩ :=
  catStats_withCat_self st c _

theorem bumpStats_other (st : Stats) (c : Category) (e : String) (sz : Nat)
    (c' : Category) (h : c' ≠ c) : (bumpStats st c e sz).catStats c' = st.catStats c' :=
  catStats_withCat_other st c _ c' h

theorem bumpStats_moved (st : Stats) (c : Category) (e : String) (sz : Nat) :
    (bumpStats st c e sz).moved = st.moved :=
  withCat_moved st c _

theorem bumpStats_errors (st : Stats) (c : Category) (e : String) (sz : Nat) :
    (bumpStats st c e sz).errors = st.errors :=
  withCat_errors st c _

theorem setMoved_catStats (st : Stats) (l : List String) :
    ({ st with moved := l } : Stats).catStats = st.catStats := by
  funext c
  cases c <;> rfl

theorem setErrors_catStats (st : Stats) (l : List String) :
    ({ st with errors := l } : Stats).catStats = st.catStats := by
  funext c
  cases c <;> rfl

theorem processFile_stats_eq (mode : RunMode) (source : List String)
    (target : Option (List String)) (today : String) (acc : Stats × List String)
    (f : FileEntry) (h : skipsFile source target f = false) (c' : Category) :
    ((processFile mode source target today acc f).1).catStats c' =
      (bumpStats acc.1 (classify f.mime (extOf f)) (extOf f) f.size).catStats c' := by
  cases mode with
  | report => simp [processFile, h]
  | dryRun => simp [processFile, h, setMoved_catStats]
  | organize =>
      by_cases hm : f.moveFails <;>
        simp [processFile, h, hm, setMoved_catStats, setErrors_catStats]

/-- Claim C4: for every enumerated regular file not excluded by the step-1
    skip rules, the category's total count and total size and the
    per-extension count and size are each updated exactly once, in every run
    mode, for every outcome of the later date-extraction and move steps
    (dates and move failure are quantified through the file record). -/
theorem claim_C4 (mode : RunMode) (source : List String) (target : Option (List String))
    (today : String) (st : Stats) (fs : List String) (f : FileEntry)
    (h : skipsFile source target f = false) :
    (((processFile mode source target today (st, fs) f).1).catStats
        (classify f.mime (extOf f))).totalCount
      = (st.catStats (classify f.mime (extOf f))).totalCount + 1 ∧
    (((processFile mode source target today (st, fs) f).1).catStats
        (classify f.mime (extOf f))).totalSize
      = (st.catStats (classify f.mime (extOf f))).totalSize + f.size ∧
    lookupAssoc (((processFile mode source target today (st, fs) f).1).catStats
        (classify f.mime (extOf f))).countByExt (extOf f)
      = lookupAssoc ((st.catStats (classify f.mime (extOf f))).countByExt) (extOf f) + 1 ∧
    lookupAssoc (((processFile mode source target today (st, fs) f).1).catStats
        (classify f.mime (extOf f))).sizeByExt (extOf f)
      = lookupAssoc ((st.catStats (classify f.mime (extOf f))).sizeByExt) (extOf f) + f.size ∧
    (∀ c', c' ≠ classify f.mime (extOf f) →
      ((processFile mode source target today (st, fs) f).1).catStats c' = st.catStats c') ∧
    (∀ k, k ≠ extOf f →
      lookupAssoc (((processFile mode source target today (st, fs) f).1).catStats
          (classify f.mime (extOf f))).countByExt k
        = lookupAssoc ((st.catStats (classify f.mime (extOf f))).countByExt) k ∧
      lookupAssoc (((processFile mode source target today (st, fs) f).1).catStats
          (classify f.mime (extOf f))).sizeByExt k
        = lookupAssoc ((st.catStats (classify f.mime (extOf f))).sizeByExt) k) := by
  have hs := processFile_stats_eq mode source target today (st, fs) f h
  refine ⟨?_, ?_, ?_, ?_, ?_, ?_⟩
  · rw [hs, bumpStats_self]
  · rw [hs, bumpStats_self]
  · rw [hs, bumpStats_self]
    exact lookup_bumpAssoc_self _ _ _
  · rw [hs, bumpStats_self]
    exact lookup_bumpAssoc_self _ _ _
  · intro c' hc'
    rw [hs, bumpStats_other _ _ _ _ c' hc']
  · intro k hk
    rw [hs, bumpStats_self]
    exact ⟨lookup_bumpAssoc_other _ _ _ _ hk, lookup_bumpAssoc_other _ _ _ _ hk⟩

/-- Concrete run of claim_C4: a jpeg in organize mode whose move fails still
    bumps the Photos total count from 0 to 1. -/
theorem claim_C4_witness :
    (((processFile .organize ["src"] (some ["out"]) "20240101" (Stats.start, [])
        ⟨["img.jpg"], true, 123, "image/jpeg", none, none, true, "boom"⟩).1).catStats
      (classify "image/jpeg" (extOf ⟨["img.jpg"], true, 123, "image/jpeg", none, none, true, "boom"⟩))).totalCount
    = (Stats.start.catStats
        (classify "image/jpeg" (extOf ⟨["img.jpg"], true, 123, "image/jpeg", none, none, true, "boom"⟩))).totalCount + 1 :=
  (claim_C4 .organize ["src"] (some ["out"]) "20240101" Stats.start []
    ⟨["img.jpg"], true, 123, "image/jpeg", none, none, true, "boom"⟩ (by decide)).1

theorem sumVals_bumpAssoc (m : List (String × Nat)) (k : String) (d : Nat) :
    sumVals (bumpAssoc m k d) = sumVals m + d := by
  induction m with
  | nil => simp [bumpAssoc, sumVals]
  | cons p rest ih =>
      obtain ⟨k', v⟩ := p
      by_cases h : k' = k <;> simp [bumpAssoc, sumVals, h] <;>
        simp [sumVals] at ih <;> omega

theorem statsInv_congr (st1 st2 : Stats) (h : ∀ c', st1.catStats c' = st2.catStats c')
    (h2 : statsInv st2) : statsInv st1 := by
  have hp := h .photos
  have hv := h .videos
  have hn := h .nonMedia
  simp only [Stats.catStats] at hp hv hn
  unfold statsInv at *
  rw [hp, hv, hn]
  exact h2

theorem statsInv_bump (st : Stats) (c : Category) (e : String) (sz : Nat)
    (h : statsInv st) : statsInv (bumpStats st c e sz) := by
  obtain ⟨h1, h2, h3⟩ := h
  cases c <;>
    exact ⟨by simp_all [bumpStats, Stats.withCat, Stats.catStats, catInv, sumVals_bumpAssoc],
      by simp_all [bumpStats, Stats.withCat, Stats.catStats, catInv, sumVals_bumpAssoc],
      by simp_all [bumpStats, Stats.withCat, Stats.catStats, catInv, sumVals_bumpAssoc]⟩

theorem statsInv_processFile (mode : RunMode) (source : List String)
    (target : Option (List String)) (today : String) (acc : Stats × List String)
    (f : FileEntry) (h : statsInv acc.1) :
    statsInv (processFile mode source target today acc f).1 := by
  by_cases hskip : skipsFile source target f = true
  · simpa [processFile, hskip] using h
  · exact statsInv_congr _ _
      (processFile_stats_eq mode source target today acc f (by simpa using hskip))
      (statsInv_bump acc.1 _ _ _ h)

theorem statsInv_runTask (mode : RunMode) (source : List String)
    (target : Option (List String)) (today : String) :
    ∀ (files : List FileEntry) (acc : Stats × List String),
      statsInv acc.1 → statsInv (runTask mode source target today files acc).1 := by
  intro files
  induction files with
  | nil => intro acc h; exact h
  | cons f rest ih =>
      intro acc h
      exact ih (processFile mode source target today acc f)
        (statsInv_processFile mode source target today acc f h)

/-- Claim C5: at every point during and after a run (i.e. after any prefix
    of the enumerated files, a run being a fold of processFile), for each
    category the per-extension counts sum to the category total count, and
    the per-extension sizes to the total size. -/
theorem claim_C5 (mode : RunMode) (source : List String) (target : Option (List String))
    (today : String) (files : List FileEntry) (fs0 : List String) :
    statsInv (runTask mode source target today files (Stats.start, fs0)).1 ∧
    ∀ k, statsInv (runTask mode source target today (files.take k) (Stats.start, fs0)).1 :=
  ⟨statsInv_runTask mode source target today files (Stats.start, fs0)
      ⟨⟨rfl, rfl⟩, ⟨rfl, rfl⟩, ⟨rfl, rfl⟩⟩,
    fun k => statsInv_runTask mode source target today (files.take k) (Stats.start, fs0)
      ⟨⟨rfl, rfl⟩, ⟨rfl, rfl⟩, ⟨rfl, rfl⟩⟩⟩

theorem processFile_report_fs (source : List String) (target : Option (List String))
    (today : String) (acc : Stats × List String) (f : FileEntry) :
    (processFile .report source target today acc f).2 = acc.2 := by
  by_cases h : skipsFile source target f <;> simp [processFile, h]

theorem runTask_report_fs (source : List String) (target : Option (List String))
    (today : String) :
    ∀ (files : List FileEntry) (acc : Stats × List String),
      (runTask .report source target today files acc).2 = acc.2 := by
  intro files
  induction files with
  | nil => intro acc; rfl
  | cons f rest ih =>
      intro acc
      rw [show runTask .report source target today (f :: rest) acc
          = runTask .report source target today rest
              (processFile .report source target today acc f) from rfl]
      rw [ih (processFile .report source target today acc f)]
      exact processFile_report_fs source target today acc f

/-- Claim C7: a Report-mode run leaves the filesystem (the set of existing
    paths, covering everything under source and target) unchanged, and
    writes no log file; only the statistics component of the state moves. -/
theorem claim_C7 (source : List String) (target : Option (List String)) (today : String)
    (files : List FileEntry) (st0 : Stats) (fs0 : List String) :
    (runTask .report source target today files (st0, fs0)).2 = fs0 ∧
    logLines .report (runTask .report source target today files (st0, fs0)).1 = none :=
  ⟨runTask_report_fs source target today files (st0, fs0), rfl⟩

/-- Claim C6: in Organize mode a failing move is caught and recorded as
    exactly one error entry pairing the source path with the reason, the
    moved list is untouched, and the run goes on with the remaining files
    (the next state is exactly the fold over the rest). -/
theorem claim_C6 (source t : List String) (today : String) (st : Stats)
    (fs : List String) (f : FileEntry) (rest : List FileEntry)
    (hskip : skipsFile source (some t) f = false) (hfail : f.moveFails = true) :
    (processFile .organize source (some t) today (st, fs) f).1.errors
      = st.errors ++ ["Error moving " ++ pathString (source ++ f.rel) ++ ": " ++ f.moveErr] ∧
    (processFile .organize source (some t) today (st, fs) f).1.moved = st.moved ∧
    runTask .organize source (some t) today (f :: rest) (st, fs)
      = runTask .organize source (some t) today rest
          (processFile .organize source (some t) today (st, fs) f) := by
  refine ⟨?_, ?_, rfl⟩ <;>
    simp [processFile, hskip, hfail, bumpStats_errors, bumpStats_moved]

/-- Concrete run of claim_C6: the failed move of img.jpg is recorded with
    its path and reason while the moved list stays empty. -/
theorem claim_C6_witness :
    (processFile .organize ["data"] (some ["out"]) "20240101" (Stats.start, [])
        ⟨["img.jpg"], true, 123, "image/jpeg", none, none, true, "Permission denied"⟩).1.errors
      = ["Error moving data/img.jpg: Permission denied"] ∧
    (processFile .organize ["data"] (some ["out"]) "20240101" (Stats.start, [])
        ⟨["img.jpg"], true, 123, "image/jpeg", none, none, true, "Permission denied"⟩).1.moved
      = [] := by
  have h := claim_C6 ["data"] ["out"] "20240101" Stats.start []
    ⟨["img.jpg"], true, 123, "image/jpeg", none, none, true, "Permission denied"⟩ []
    (by decide) (by decide)
  exact ⟨by rw [h.1]; decide, by rw [h.2.1]; rfl⟩

/-- Claim C8: in DryRun mode the filesystem is untouched and get_safe_path
    is never consulted: the single recorded plan entry shows the unresolved
    candidate destination (for any filesystem contents, including ones where
    that candidate already exists), formatted as
    "[DRY RUN] {Category}: {name} -> {destination}", and the written log
    consists of exactly the recorded entries. -/
theorem claim_C8 (source t : List String) (today : String) (st : Stats)
    (fs : List String) (f : FileEntry)
    (hskip : skipsFile source (some t) f = false) :
    (processFile .dryRun source (some t) today (st, fs) f).2 = fs ∧
    (processFile .dryRun source (some t) today (st, fs) f).1.moved
      = st.moved ++ ["[DRY RUN] " ++ catName (classify f.mime (extOf f)) ++ ": "
          ++ fileName f ++ " -> "
          ++ pathString (computeDest t (classify f.mime (extOf f)) f.rel (fileName f)
              (extractDate f (extOf f)))] ∧
    (processFile .dryRun source (some t) today (st, fs) f).1.errors = st.errors ∧
    logLines .dryRun (processFile .dryRun source (some t) today (st, fs) f).1
      = some ((processFile .dryRun source (some t) today (st, fs) f).1.moved) := by
  refine ⟨?_, ?_, ?_, rfl⟩ <;>
    simp [processFile, hskip, bumpStats_moved, bumpStats_errors]

/-- Concrete run of claim_C8: a dry-run plan line for an undated jpeg shows
    the unresolved UnknownDate destination although that path already exists
    in the filesystem, which is left unchanged. -/
theorem claim_C8_witness :
    (processFile .dryRun ["data"] (some ["out"]) "20240101"
        (Stats.start, ["out/UnknownDate/Photos/img.jpg"])
        ⟨["img.jpg"], true, 123, "image/jpeg", none, none, false, ""⟩).2
      = ["out/UnknownDate/Photos/img.jpg"] ∧
    (processFile .dryRun ["data"] (some ["out"]) "20240101"
        (Stats.start, ["out/UnknownDate/Photos/img.jpg"])
        ⟨["img.jpg"], true, 123, "image/jpeg", none, none, false, ""⟩).1.moved
      = ["[DRY RUN] Photos: img.jpg -> out/UnknownDate/Photos/img.jpg"] := by
  have h := claim_C8 ["data"] ["out"] "20240101" Stats.start
    ["out/UnknownDate/Photos/img.jpg"]
    ⟨["img.jpg"], true, 123, "image/jpeg", none, none, false, ""⟩ (by decide)
  exact ⟨h.1, by rw [h.2.1]; decide⟩

/-- Counterexample to claim C9 as stated: invoking the program as
    `python3 media_organizer.py --report-only` gives fewer than one
    positional argument, yet the program does not exit with the usage
    message: src is None and os.path.exists(None) raises an uncaught
    TypeError (the modelled typeError outcome), a traceback rather than
    a usage message. -/
theorem claim_C9_counterexample :
    (positionalsOf ["media_organizer.py", "--report-only"]).length < 1 ∧
    mainStartup ["media_organizer.py", "--report-only"] (fun _ => false)
      = .typeError ∧
    mainStartup ["media_organizer.py", "--report-only"] (fun _ => false)
      ≠ .usageExit := by
  decide

theorem positionals_cons_len (argv : List String) (src : String) (rest : List String)
    (hpos : positionalsOf argv = src :: rest) : 2 ≤ argv.length := by
  have h1 : 1 ≤ (positionalsOf argv).length := by rw [hpos]; simp
  have h2 : (positionalsOf argv).length ≤ (argv.drop 1).length :=
    List.length_filter_le _ _
  have h3 : (argv.drop 1).length = argv.length - 1 := List.length_drop 1 argv
  omega

/-- Claim C9, amended: with no argv entries beyond the program name the
    program exits with the usage message; with only flag arguments (no
    positional) it instead ends in an uncaught TypeError from
    os.path.exists(None); a first positional that does not exist, or a
    non-Report mode whose target argument is absent or empty, exit with an
    explanatory message; and run_task is reached (proceed) only with an
    existing source and, outside Report mode, a non-empty target. -/
theorem claim_C9_amended (argv : List String) (pathExists : String → Bool) :
    (argv.length < 2 → mainStartup argv pathExists = .usageExit) ∧
    (2 ≤ argv.length → positionalsOf argv = [] →
      mainStartup argv pathExists = .typeError) ∧
    (∀ src rest, positionalsOf argv = src :: rest → pathExists src = false →
      mainStartup argv pathExists = .sourceMissingExit) ∧
    (∀ src rest, positionalsOf argv = src :: rest → pathExists src = true →
      modeOf argv ≠ .report → (dstOf argv = none ∨ dstOf argv = some "") →
      mainStartup argv pathExists = .targetMissingExit) ∧
    (∀ src dst mode, mainStartup argv pathExists = .proceed src dst mode →
      pathExists src = true ∧ (positionalsOf argv).head? = some src ∧
      mode = modeOf argv ∧ dst = dstOf argv ∧
      (mode ≠ .report → dst ≠ none ∧ dst ≠ some "")) := by
  refine ⟨?_, ?_, ?_, ?_, ?_⟩
  · intro h
    unfold mainStartup
    rw [if_pos h]
  · intro h1 h2
    unfold mainStartup
    rw [if_neg (by omega), h2]
    rfl
  · intro src rest hpos hex
    unfold mainStartup
    rw [if_neg (by have := positionals_cons_len argv src rest hpos; omega), hpos]
    simp [hex]
  · intro src rest hpos hex hmode hdst
    unfold mainStartup
    rw [if_neg (by have := positionals_cons_len argv src rest hpos; omega), hpos]
    simp only [List.head?_cons]
    rw [if_neg (by simp [hex]), if_pos ⟨hmode, hdst⟩]
  · intro src dst mode h
    unfold mainStartup at h
    split at h
    · exact absurd h (by simp)
    · split at h
      · exact absurd h (by simp)
      · rename_i s hpos
        split at h
        · exact absurd h (by simp)
        · rename_i hex
          split at h
          · exact absurd h (by simp)
          · rename_i htm
            obtain ⟨hs, hd, hm⟩ := StartupOutcome.proceed.inj h
            subst hs
            subst hd
            subst hm
            refine ⟨by simpa using hex, hpos, rfl, rfl, ?_⟩
            intro hmode
            push_neg at htm
            exact htm hmode

/-- Claim C10: get_photo_date parses only the first 19 characters of the
    DateTimeOriginal value against '%Y:%m:%d %H:%M:%S': any value whose
    first 19 characters form a valid timestamp yields that parsed date no
    matter what trails it, and a value whose first 19 characters do not
    parse yields None. -/
theorem claim_C10 (v rest : String) (h : v.length = 19) :
    get_photo_date_value (v ++ rest) = strptimeYmdHMS v ∧
    (strptimeYmdHMS v = none → get_photo_date_value (v ++ rest) = none) ∧
    (∀ d, strptimeYmdHMS v = some d → get_photo_date_value (v ++ rest) = some d) := by
  have hlen : v.data.length = 19 := h
  have htake : (v ++ rest).data.take 19 = v.data := by
    rw [show (v ++ rest).data = v.data ++ rest.data from rfl, ← hlen, List.take_left]
  have hmain : get_photo_date_value (v ++ rest) = strptimeYmdHMS v := by
    unfold get_photo_date_value
    rw [htake]
  exact ⟨hmain, fun hn => hmain.trans hn, fun d hd => hmain.trans hd⟩

/-- Concrete run of claim_C10: a DateTimeOriginal value carrying subseconds
    and a timezone suffix after the 19-character timestamp still parses. -/
theorem claim_C10_witness :
    get_photo_date_value ("2023:06:15 12:34:56" ++ ".321+02:00")
      = some ⟨2023, 6, 15, 12, 34, 56⟩ :=
  (claim_C10 "2023:06:15 12:34:56" ".321+02:00" (by decide)).2.2
    ⟨2023, 6, 15, 12, 34, 56⟩ (by decide)
